import Mathlib

/-!
Verification of the dmx-player recorder/playback pipeline.

The definitions below are a shallow embedding of the TypeScript sources:
`src/index.ts` (the current `DMXRecorder` class used by `src/player.ts`) and
the earlier iterations kept in `src/unnamed/part_000` .. `part_002` (the
`prepareFrames` / `processFrame` / `interpolateFrames` / `processAndDelay`
variant lives in `part_002`).  Machine integers are modelled as `Nat`/`Int`,
JavaScript floating-point division on small integral inputs as `ℚ`, wall-clock
timestamps as milliseconds since the epoch, and fallible operations as
`Option`.
-/

namespace DMXPlayer

/-- A captured ArtNet packet as built by the `receiver.on("data")` handler of
`createListeners` in `src/index.ts`: `TS` is the capture timestamp in
milliseconds since the epoch (on disk it is serialized as an ISO-8601 string;
on the fixed-width ISO format lexicographic string order agrees with numeric
order, so the comparator is modelled on the numeric value), `U` is the logical
universe number, `S = U / 16` the subnet, `N = 0` the net, and `data` the DMX
channel bytes of the received buffer. -/
structure Packet where
  TS : Nat
  U : Nat
  S : Nat
  N : Nat
  data : List Int
deriving DecidableEq, Repr

/-- One configured ArtNet sender, as built by `createSenders` in
`src/index.ts`: the dmxnet sender object keeps the local `universe` (mod 16),
the `subnet` (div 16), `net = 0`, and the output `ip` it was created for. -/
structure Sender where
  ip : String
  uni : Nat
  subnet : Nat
  net : Nat
deriving DecidableEq, Repr

/-- One entry of `PlayerConfig.outputs` in `src/index.ts`. -/
structure Output where
  ip : String
  unis : List Nat
deriving DecidableEq, Repr

/-- Embeds `createSenders` (src/index.ts): for every output and every logical
universe listed on it, one sender is created with the (net, subnet,
local-universe) triple derived from the logical universe number. -/
def createSenders (outputs : List Output) : List Sender :=
  (outputs.map (fun o => o.unis.map (fun u =>
    { ip := o.ip, uni := u % 16, subnet := u / 16, net := 0 }))).flatten

/-- The sender predicate of the playback loop in `src/index.ts`
(`sender.universe === packet.U && sender.subnet === packet.S &&
sender.net === packet.N`). -/
def senderMatchesLoop (p : Packet) (s : Sender) : Bool :=
  s.uni == p.U && s.subnet == p.S && s.net == p.N

/-- The playback loop of `src/index.ts` selects the sender with
`this.senders.find(...)` — the first matching sender only — and transmits the
packet to it.  The list of senders that receive the packet is therefore the
optional first match. -/
def loopTargets (senders : List Sender) (p : Packet) : List Sender :=
  (senders.find? (senderMatchesLoop p)).toList

/-- The sender filter of `processFrame` in `src/unnamed/part_002`: it keeps
every matching sender, but its predicate compares `sender.subnet === packet.N`
(not `packet.S`), faithfully kept here. -/
def processFrameTargets (senders : List Sender) (p : Packet) : List Sender :=
  senders.filter (fun s => s.uni == p.U && s.subnet == p.N && s.net == p.N)

/-- Side effects the inbound-packet handler can produce, in order. -/
inductive Effect where
  | timerReset
  | recordWrite (p : Packet)
  | send (s : Sender) (data : List Int)
deriving DecidableEq, Repr

/-- Embeds the inbound-packet handler installed by `createListeners`
(src/index.ts): the handler first calls `checkForTimeout()` (resetting the
idle timer), then — if the player is in the Playing state — returns at once;
otherwise it writes the packet to the gzip recording stream when recording is
on, and forwards the channel data to every sender with the same universe
number when passthrough is on.  The packet written is built from the receiving
universe with `S = U / 16` and `N = 0`. -/
def handleInboundData (playing recording passthrough : Bool)
    (senders : List Sender) (ts u : Nat) (data : List Int) : List Effect :=
  Effect.timerReset ::
    (if playing then [] else
      (if recording then
        [Effect.recordWrite { TS := ts, U := u, S := u / 16, N := 0, data := data }]
      else []) ++
      (if passthrough then
        (senders.filter (fun s => s.uni == u)).map (fun s => Effect.send s data)
      else []))

/- ### C10: the Playing state disables recording writes and passthrough -/

/-- C10: whenever the system is in the Playing state, an inbound packet is
neither written to the recording stream nor forwarded to any output sender:
the handler checks the flag at its top, right after resetting the idle timer,
and produces no further effect. -/
theorem playing_blocks_inbound (recording passthrough : Bool)
    (senders : List Sender) (ts u : Nat) (data : List Int) :
    handleInboundData true recording passthrough senders ts u data
      = [Effect.timerReset] := rfl

/- ### C3: fan-out of playback packets to matching senders -/

/-- Two outputs, each configured for logical universe 5 (scenario D). -/
def outputsD : List Output :=
  [{ ip := "192.168.0.21", unis := [5] }, { ip := "192.168.0.20", unis := [5] }]

/-- The senders created for `outputsD`. -/
def sendersD : List Sender := createSenders outputsD

/-- A played-back packet addressed to universe 5. -/
def packetD : Packet := { TS := 0, U := 5, S := 0, N := 0, data := [255] }

/-- C3 counterexample: the second sender matches the universe-5 packet and is
configured, yet the playback loop of `src/index.ts` transmits only to the
first matching sender (`Array.prototype.find`), so the second one receives
nothing. -/
theorem loop_drops_second_matching_sender :
    senderMatchesLoop packetD { ip := "192.168.0.20", uni := 5, subnet := 0, net := 0 } = true ∧
    { ip := "192.168.0.20", uni := 5, subnet := 0, net := 0 } ∈ sendersD ∧
    loopTargets sendersD packetD
      = [{ ip := "192.168.0.21", uni := 5, subnet := 0, net := 0 }] := by
  refine ⟨rfl, ?_, rfl⟩
  simp [sendersD, createSenders, outputsD]

/-- C3 amended: the playback loop of `src/index.ts` transmits each packet to at
most one sender — the first whose address matches — and any sender it does
transmit to matches the packet.  (The `part_002` variant fans out via
`filter`, but the loop actually shipped in `src/index.ts` does not.) -/
theorem loop_transmits_first_match_only (senders : List Sender) (p : Packet) :
    (loopTargets senders p).length ≤ 1 ∧
    ∀ s ∈ loopTargets senders p, senderMatchesLoop p s = true := by
  constructor
  · unfold loopTargets
    cases senders.find? (senderMatchesLoop p) <;> simp
  · intro s hs
    unfold loopTargets at hs
    cases h : senders.find? (senderMatchesLoop p) with
    | none => rw [h] at hs; simp at hs
    | some t =>
      rw [h] at hs
      simp only [Option.toList_some, List.mem_singleton] at hs
      subst hs
      exact List.find?_some h

/-- Witness for the amended C3 theorem at the scenario-D configuration. -/
theorem loop_transmits_first_match_only_witness :
    senderMatchesLoop packetD { ip := "192.168.0.21", uni := 5, subnet := 0, net := 0 } = true :=
  (loop_transmits_first_match_only sendersD packetD).2 _ (by
    show _ ∈ loopTargets sendersD packetD
    rw [show loopTargets sendersD packetD
      = [{ ip := "192.168.0.21", uni := 5, subnet := 0, net := 0 }] from rfl]
    exact List.mem_singleton.mpr rfl)

/- ### C4: the inter-frame sleep computation -/

/-- Embeds the sleep computation at the bottom of the playback loop in
`src/index.ts`: `const pbd = delays[i] - (ts2 - ts); if (pbd > 2) await
sleep(pbd - 2)`.  The loop sleeps `pbd - 2` milliseconds when `pbd > 2` and
does not sleep at all otherwise. -/
def pbdSleep (delayI elapsed : Int) : Int :=
  if delayI - elapsed > 2 then delayI - elapsed - 2 else 0

/-- Modelled from the spec: sleep `max(0, delays[i] - processingTime)`. -/
def specSleep (delayI elapsed : Int) : Int := max 0 (delayI - elapsed)

/-- Embeds `processAndDelay` of `src/unnamed/part_002`: the sleep target is
`Math.max(0, 1000 / this.playbackFPS - frameProcessingTime)` — a fixed frame
duration derived from the playback FPS, independent of any recorded delay. -/
def processAndDelaySleep (fps : Nat) (elapsed : ℚ) : ℚ :=
  max 0 (1000 / (fps : ℚ) - elapsed)

/-- C4 counterexample: with a recorded delay of 50 ms and zero processing
time, the code sleeps 48 ms, not the 50 ms the claim specifies. -/
theorem sleep_formula_counterexample :
    pbdSleep 50 0 = 48 ∧ specSleep 50 0 = 50 ∧ pbdSleep 50 0 ≠ specSleep 50 0 := by
  refine ⟨rfl, rfl, ?_⟩
  decide

/-- C4 amended: the playback loop of `src/index.ts` sleeps
`max(0, delays[i] - processingTime - 2)` — the recorded delay shortened by a
2 ms fudge factor, with no sleep when the residual is not positive.  (The
`part_002` variant instead sleeps `max(0, 1000/fps - processingTime)`, a fixed
frame duration.) -/
theorem pbdSleep_eq_max_sub_two (d e : Int) : pbdSleep d e = max 0 (d - e - 2) := by
  unfold pbdSleep
  rcases lt_or_le 2 (d - e) with h | h
  · rw [if_pos h, max_eq_right]; omega
  · rw [if_neg (by omega), max_eq_left]; omega

/- ### C8: sorting the loaded packets -/

/-- The comparator passed to `Array.prototype.sort` by `handleFileData` and
by `loop` in `src/index.ts`: `(a, b) => (a.TS < b.TS ? -1 : 1)`. -/
def cmpTS (a b : Packet) : Int := if a.TS < b.TS then -1 else 1

/-- The merge decision of the stable TimSort that implements
`Array.prototype.sort` (ES2019 requires the sort to be stable): during a merge
the element of the left run stays in front unless the comparator reports the
right element strictly smaller, i.e. unless `cmpTS right left < 0`. -/
def jsTakesLeft (a b : Packet) : Bool := !(decide (cmpTS b a < 0))

/-- The sort performed on the loaded packet sequence, modelled as the stable
merge sort driven by `jsTakesLeft`. -/
def jsSort (l : List Packet) : List Packet := l.mergeSort jsTakesLeft

/-- The source comparator orders by timestamp: keeping the left element is
exactly the non-strict timestamp comparison. -/
theorem jsTakesLeft_eq (a b : Packet) : jsTakesLeft a b = decide (a.TS ≤ b.TS) := by
  unfold jsTakesLeft cmpTS
  by_cases h : b.TS < a.TS
  · simp [h, show ¬(a.TS ≤ b.TS) from by omega]
  · simp [h, show a.TS ≤ b.TS from by omega]

theorem jsTakesLeft_trans (a b c : Packet) (hab : jsTakesLeft a b = true)
    (hbc : jsTakesLeft b c = true) : jsTakesLeft a c = true := by
  rw [jsTakesLeft_eq] at *
  have h1 := of_decide_eq_true hab
  have h2 := of_decide_eq_true hbc
  exact decide_eq_true (le_trans h1 h2)

theorem jsTakesLeft_total (a b : Packet) :
    (jsTakesLeft a b || jsTakesLeft b a) = true := by
  rw [jsTakesLeft_eq, jsTakesLeft_eq]
  rcases Nat.le_total a.TS b.TS with h | h <;> simp [h]

/-- C8: the loaded packet sequence is sorted non-decreasing by timestamp, and
the sort is stable: for every timestamp value the packets carrying it appear
in exactly their original (on-disk arrival) order. -/
theorem jsSort_sorted_and_stable (l : List Packet) :
    List.Pairwise (fun a b => a.TS ≤ b.TS) (jsSort l) ∧
    ∀ t : Nat, (jsSort l).filter (fun p => p.TS == t)
      = l.filter (fun p => p.TS == t) := by
  constructor
  · have h := @List.sorted_mergeSort Packet jsTakesLeft jsTakesLeft_trans jsTakesLeft_total l
    refine h.imp ?_
    intro a b hab
    rw [jsTakesLeft_eq] at hab
    exact of_decide_eq_true hab
  · intro t
    set p : Packet → Bool := fun x => x.TS == t with hp
    have hmem : ∀ x ∈ l.filter p, x.TS = t := by
      intro x hx
      have := (List.mem_filter.mp hx).2
      simpa [hp] using this
    have hpair : List.Pairwise (fun a b => jsTakesLeft a b = true) (l.filter p) := by
      refine List.pairwise_of_forall_mem_list ?_
      intro a ha b hb
      rw [jsTakesLeft_eq]
      exact decide_eq_true (le_of_eq (by rw [hmem a ha, hmem b hb]))
    have hsub : (l.filter p).Sublist (jsSort l) :=
      List.sublist_mergeSort jsTakesLeft_trans jsTakesLeft_total hpair
        (List.filter_sublist l)
    have hsub2 : (l.filter p).Sublist ((jsSort l).filter p) := by
      have := hsub.filter p
      rwa [List.filter_filter, show (fun x => p x && p x) = p from by
        funext x; cases p x <;> rfl] at this
    have hperm : ((jsSort l).filter p).Perm (l.filter p) :=
      (List.mergeSort_perm l jsTakesLeft).filter p
    exact (hsub2.eq_of_length hperm.length_eq.symm).symm

/- ### C2: frame building and inter-frame delays -/

/-- The JS code counts distinct addresses through a `Set` of the strings
`U + ":" + S + ":" + N`; two packets map to the same string exactly when the
three numbers agree, so the triple serves as the key. -/
def addrKey (p : Packet) : Nat × Nat × Nat := (p.U, p.S, p.N)

/-- The size of the `Set` of address keys: the number of distinct addresses
in the recording. -/
def recordedUniverses (content : List Packet) : Nat :=
  ((content.map addrKey).dedup).length

/-- A playback frame (`type Frame` in the sources): a stored `delay` and the
packets of one chunk. -/
structure Frame where
  delay : Int
  packet : List Packet
deriving DecidableEq, Repr

/-- Consecutive chunks of size `k`, as produced by the loop
`for (i = 0; i < content.length; i += k) content.slice(i, i + k)`.  The
`fuel` argument bounds the number of loop iterations; since every iteration
consumes at least one element, the list length is always enough.  A chunk
size of zero would keep the source loop on `i = 0` forever; it only arises
for an empty content list, where the loop body never runs. -/
def chunkListFuel : Nat → Nat → List Packet → List (List Packet)
  | 0, _, _ => []
  | _ + 1, _, [] => []
  | _ + 1, 0, _ :: _ => []
  | fuel + 1, k + 1, x :: xs => (x :: xs.take k) :: chunkListFuel fuel (k + 1) (xs.drop k)

/-- Embeds `prepareFrames` of `src/unnamed/part_002`: slice the loaded content
into consecutive chunks of `recordedUniverses` packets and wrap every chunk in
a frame whose `delay` field is the literal `0` the source writes
(`frames.push({ delay: 0, packet: framePackets })`). -/
def prepareFrames (content : List Packet) : List Frame :=
  (chunkListFuel content.length (recordedUniverses content) content).map
    (fun c => { delay := 0, packet := c })

/-- Helper for the per-packet delay map: the gaps between consecutive
timestamps. -/
def packetGaps : Packet → List Packet → List Int
  | _, [] => []
  | prev, c :: cs => ((c.TS : Int) - prev.TS) :: packetGaps c cs

/-- Embeds the delay computation of `loop` in `src/index.ts`: entry 0 is 0 and
entry `i > 0` is `TS(i) - TS(i-1)` in milliseconds — one delay per PACKET of
the sorted buffer, not per frame. -/
def packetDelays : List Packet → List Int
  | [] => []
  | p :: ps => 0 :: packetGaps p ps

/-- Scenario A, first packet: universe 1 at t = 0 ms. -/
def pA1 : Packet := { TS := 0, U := 1, S := 0, N := 0, data := [0] }

/-- Scenario A, second packet: universe 2 at t = 50 ms. -/
def pA2 : Packet := { TS := 50, U := 2, S := 0, N := 0, data := [0] }

/-- Scenario A, third packet: universe 1 at t = 120 ms. -/
def pA3 : Packet := { TS := 120, U := 1, S := 0, N := 0, data := [0] }

/-- The three packets of scenario A, already in timestamp order. -/
def scenarioA : List Packet := [pA1, pA2, pA3]

/-- C2 counterexample: on scenario A the frame builder does produce two
frames, but their stored delays are `[0, 0]`, not the `[0, 50]` the claim
states; the only timestamp gaps the code computes are the per-packet delays
`[0, 50, 70]` of `src/index.ts`, which are not per-frame either. -/
theorem scenarioA_delays_counterexample :
    (prepareFrames scenarioA).map Frame.delay = [0, 0] ∧
    ([0, 0] : List Int) ≠ [0, 50] ∧
    packetDelays scenarioA = [0, 50, 70] := by
  refine ⟨by decide, by decide, by decide⟩

/-- C2 amended: on scenario A the builder produces exactly 2 frames with chunk
boundaries at indices 0 and 2, and the stored delays are `[0, 0]`: the frame
builder writes a literal zero into every frame it builds, for every input —
the recorded timestamp gap between chunk-first packets is never used. -/
theorem scenarioA_frames_and_zero_delays :
    (prepareFrames scenarioA).map Frame.packet = [[pA1, pA2], [pA3]] ∧
    (prepareFrames scenarioA).map Frame.delay = [0, 0] ∧
    ∀ content : List Packet, (prepareFrames content).map Frame.delay
      = List.replicate (prepareFrames content).length 0 := by
  refine ⟨by decide, by decide, ?_⟩
  intro content
  unfold prepareFrames
  generalize chunkListFuel content.length (recordedUniverses content) content = cs
  induction cs with
  | nil => rfl
  | cons c cs ih => simp [List.replicate_succ]; simpa using ih

/- ### C5 and C6: the cross-fade interpolation -/

/-- JavaScript `Math.round`: round half toward positive infinity. -/
def jsRound (q : ℚ) : Int := Int.floor (q + 1 / 2)

/-- The per-channel linear interpolation of `interpolateFrames` in
`src/unnamed/part_002`:
`Math.round(value1 + (value2 - value1) * (step / totalSteps))`. -/
def interpChannel (v1 v2 : Int) (step total : Nat) : Int :=
  jsRound ((v1 : ℚ) + ((v2 : ℚ) - v1) * ((step : ℚ) / total))

/-- Storing a number into a `Buffer` element
(`interpolatedPacket.data[j] = ...`) coerces it to a uint8: reduction modulo
256. -/
def storeByte (x : Int) : Int := x % 256

/-- Modelled from the spec for comparison with the source formula:
`value(i) = round(tail[c] + (head[c] - tail[c]) * i / w)`. -/
def specInterpValue (tail hd : Int) (i w : Nat) : Int :=
  jsRound ((tail : ℚ) + ((hd : ℚ) - tail) * ((i : ℚ) / w))

/-- Channel `j` of the interpolated packet data: the source reads
`packet2.data[j]`; a read past the end of packet2 yields `undefined`, the
arithmetic on it yields `NaN`, and the `Buffer` store coerces `NaN` to 0. -/
def interpDataAt (d1 d2 : List Int) (step total : Nat) (j : Nat) : Int :=
  match d2.get? j with
  | some v2 => storeByte (interpChannel (d1.getD j 0) v2 step total)
  | none => 0

/-- The interpolated channel data, one entry per channel of the tail packet
(the loop runs `for j in [0, packet1.data.length)`). -/
def interpData (d1 d2 : List Int) (step total : Nat) : List Int :=
  (List.range d1.length).map (interpDataAt d1 d2 step total)

/-- The address match of `interpolateFrames`:
`p.U === packet1.U && p.S === packet1.S && p.N === packet1.N`. -/
def sameAddress (p1 p2 : Packet) : Bool :=
  p2.U == p1.U && p2.S == p1.S && p2.N == p1.N

/-- Embeds `interpolateFrames` of `src/unnamed/part_002`: for every packet of
`frame1` (the tail), look up the packet of `frame2` (the head) with the same
address; when none exists the loop continues WITHOUT emitting anything (the
tail packet is dropped); otherwise it emits a packet with the interpolated
channel data.  The emitted timestamp is the wall clock (`new Date()`), which
nothing reads — it is modelled as 0. -/
def interpolateFrames (frame1 frame2 : Frame) (step total : Nat) : Frame :=
  { delay := 0,
    packet := frame1.packet.filterMap (fun p1 =>
      match frame2.packet.find? (sameAddress p1) with
      | none => none
      | some p2 => some { TS := 0, U := p1.U, S := p1.S, N := p1.N,
                          data := interpData p1.data p2.data step total }) }

/-- Rounding a number that is already an integer is the identity. -/
theorem jsRound_intCast (n : Int) : jsRound (n : ℚ) = n := by
  unfold jsRound
  rw [Int.floor_int_add]
  norm_num

/-- The rounded value stays between any integer bounds of its argument. -/
theorem jsRound_bounds (q : ℚ) (a b : Int) (hq1 : (a : ℚ) ≤ q) (hq2 : q ≤ b) :
    a ≤ jsRound q ∧ jsRound q ≤ b := by
  constructor
  · rw [jsRound, Int.le_floor]
    linarith
  · have h := Int.floor_mono (show q + 1 / 2 ≤ (b : ℚ) + 1 / 2 by linarith)
    rw [Int.floor_int_add, show ⌊(1 : ℚ) / 2⌋ = 0 from by norm_num] at h
    rw [jsRound]
    omega

/-- C5: with byte-valued channels and a positive fade window `w`, the stored
cross-fade channel value at step 0 equals the tail value exactly; at every
step `i ≤ w` the stored value equals the spec formula
`round(tail + (head - tail) * i / w)`; and at step `w - 1` the computed value
is within `|head - tail| / w + 1/2` (the residual interpolation step plus the
rounding error) of the head value. -/
theorem interpolation_boundary (v1 v2 : Int) (w : Nat) (hw : 0 < w)
    (h1 : 0 ≤ v1) (h1u : v1 < 256) (h2 : 0 ≤ v2) (h2u : v2 < 256) :
    storeByte (interpChannel v1 v2 0 w) = v1 ∧
    (∀ i : Nat, i ≤ w →
      storeByte (interpChannel v1 v2 i w) = specInterpValue v1 v2 i w) ∧
    |(interpChannel v1 v2 (w - 1) w : ℚ) - v2| ≤ |(v2 : ℚ) - v1| / w + 1 / 2 := by
  have hwq : (0 : ℚ) < (w : ℚ) := by exact_mod_cast hw
  have hstep : ∀ i : Nat, i ≤ w → 0 ≤ interpChannel v1 v2 i w ∧ interpChannel v1 v2 i w < 256 := by
    intro i hi
    have hr0 : (0 : ℚ) ≤ (i : ℚ) / w := by positivity
    have hr1 : (i : ℚ) / w ≤ 1 := by
      rw [div_le_one hwq]
      exact_mod_cast hi
    have h1q : (0 : ℚ) ≤ (v1 : ℚ) := by exact_mod_cast h1
    have h2q : (0 : ℚ) ≤ (v2 : ℚ) := by exact_mod_cast h2
    have h1uq : (v1 : ℚ) ≤ 255 := by exact_mod_cast (by omega : v1 ≤ 255)
    have h2uq : (v2 : ℚ) ≤ 255 := by exact_mod_cast (by omega : v2 ≤ 255)
    have hlow : (0 : ℚ) ≤ (v1 : ℚ) + ((v2 : ℚ) - v1) * ((i : ℚ) / w) := by
      nlinarith [mul_nonneg (sub_nonneg.mpr hr1) h1q, mul_nonneg hr0 h2q]
    have hhigh : (v1 : ℚ) + ((v2 : ℚ) - v1) * ((i : ℚ) / w) ≤ 255 := by
      nlinarith [mul_nonneg (sub_nonneg.mpr hr1) (sub_nonneg.mpr h1uq),
        mul_nonneg hr0 (sub_nonneg.mpr h2uq)]
    have := jsRound_bounds ((v1 : ℚ) + ((v2 : ℚ) - v1) * ((i : ℚ) / w)) 0 255
      (by exact_mod_cast hlow) (by exact_mod_cast hhigh)
    unfold interpChannel
    omega
  refine ⟨?_, ?_, ?_⟩
  · have h0 : interpChannel v1 v2 0 w = v1 := by
      unfold interpChannel
      rw [Nat.cast_zero, zero_div, mul_zero, add_zero, jsRound_intCast]
    rw [h0, storeByte, Int.emod_eq_of_lt h1 (by omega)]
  · intro i hi
    have hrange := hstep i hi
    have : specInterpValue v1 v2 i w = interpChannel v1 v2 i w := rfl
    rw [this, storeByte, Int.emod_eq_of_lt hrange.1 (by omega)]
  · have hcast : ((w - 1 : Nat) : ℚ) = (w : ℚ) - 1 := by
      have : (1 : Nat) ≤ w := hw
      push_cast [this]
      ring
    unfold interpChannel
    set x : ℚ := (v1 : ℚ) + ((v2 : ℚ) - v1) * (((w - 1 : Nat) : ℚ) / w) with hx
    have hround : |((jsRound x : Int) : ℚ) - x| ≤ 1 / 2 := by
      have hle : ((jsRound x : Int) : ℚ) ≤ x + 1 / 2 := by
        rw [jsRound]
        exact Int.floor_le _
      have hgt : x + 1 / 2 < ((jsRound x : Int) : ℚ) + 1 := by
        rw [jsRound]
        exact Int.lt_floor_add_one _
      rw [abs_le]
      constructor <;> linarith
    have hxv : x - (v2 : ℚ) = ((v1 : ℚ) - v2) / w := by
      rw [hx, hcast]
      field_simp
      ring
    calc |((jsRound x : Int) : ℚ) - v2|
        ≤ |((jsRound x : Int) : ℚ) - x| + |x - (v2 : ℚ)| := abs_sub_le _ x _
      _ ≤ 1 / 2 + |(v2 : ℚ) - v1| / w := by
          rw [hxv, abs_div, abs_of_pos hwq, abs_sub_comm (v1 : ℚ) (v2 : ℚ)]
          linarith
      _ = |(v2 : ℚ) - v1| / w + 1 / 2 := by ring

/-- Witness for C5 at tail value 10, head value 20, window 4. -/
theorem interpolation_boundary_witness :
    storeByte (interpChannel 10 20 0 4) = 10 :=
  (interpolation_boundary 10 20 4 (by norm_num) (by norm_num) (by norm_num)
    (by norm_num) (by norm_num)).1

/-- A tail frame holding one packet, addressed to universe 1. -/
def tailFrameC6 : Frame :=
  { delay := 0, packet := [{ TS := 0, U := 1, S := 0, N := 0, data := [10] }] }

/-- A head frame whose only packet has a different address (universe 2). -/
def headFrameC6 : Frame :=
  { delay := 0, packet := [{ TS := 0, U := 2, S := 0, N := 0, data := [20] }] }

/-- C6 counterexample: the tail frame holds a packet for universe 1, the head
frame has no packet with that address, and the cross-fade emits an empty
frame — the tail-only packet is dropped, not passed through with its original
channel data. -/
theorem tail_only_address_dropped :
    tailFrameC6.packet.length = 1 ∧
    (interpolateFrames tailFrameC6 headFrameC6 0 4).packet = [] := ⟨rfl, rfl⟩

/-- C6 amended: every packet the cross-fade emits has its address present in
the head frame; an address present in the tail but absent from the head is
dropped from the output (the `continue` branch emits nothing for it) rather
than passed through unmodified. -/
theorem interp_emits_only_head_addresses (f1 f2 : Frame) (s t : Nat) (p : Packet)
    (hp : p ∈ (interpolateFrames f1 f2 s t).packet) :
    ∃ q ∈ f2.packet, q.U = p.U ∧ q.S = p.S ∧ q.N = p.N := by
  unfold interpolateFrames at hp
  simp only [List.mem_filterMap] at hp
  obtain ⟨p1, hp1, hmatch⟩ := hp
  cases hfind : f2.packet.find? (sameAddress p1) with
  | none => rw [hfind] at hmatch; cases hmatch
  | some q =>
    rw [hfind] at hmatch
    have hpq := Option.some.inj hmatch
    have hq : sameAddress p1 q = true := List.find?_some hfind
    have hqmem : q ∈ f2.packet := List.mem_of_find?_eq_some hfind
    simp only [sameAddress, Bool.and_eq_true, beq_iff_eq] at hq
    refine ⟨q, hqmem, ?_, ?_, ?_⟩ <;> rw [← hpq] <;> simp [hq]

/-- A tail frame whose packet (empty channel data) also exists in the head. -/
def tailFrameC6w : Frame :=
  { delay := 0, packet := [{ TS := 0, U := 1, S := 0, N := 0, data := [] }] }

/-- A head frame containing a packet with the same address as the tail. -/
def headFrameC6w : Frame :=
  { delay := 0, packet := [{ TS := 5, U := 1, S := 0, N := 0, data := [7] }] }

/-- Witness for the amended C6 theorem on a concrete matched pair. -/
theorem interp_emits_only_head_addresses_witness :
    ∃ q ∈ headFrameC6w.packet,
      q.U = ({ TS := 0, U := 1, S := 0, N := 0, data := [] } : Packet).U ∧
      q.S = ({ TS := 0, U := 1, S := 0, N := 0, data := [] } : Packet).S ∧
      q.N = ({ TS := 0, U := 1, S := 0, N := 0, data := [] } : Packet).N :=
  interp_emits_only_head_addresses tailFrameC6w headFrameC6w 0 4 _ (by decide)

/- ### C7: fade-window clamping and index validity -/

/-- The fade-step bound computed by `loop` in `src/index.ts`:
`Math.min(300, totalPackets / 2)` — JavaScript division, so the value is a
(possibly fractional) number, not an integer. -/
def actualFadeSteps (totalPackets : Nat) : ℚ :=
  min 300 ((totalPackets : ℚ) / 2)

/-- The end-of-clip index read in fade iteration `i`:
`totalPackets - actualFadeSteps + i`. -/
def endPacketIndexQ (totalPackets : Nat) (i : Nat) : ℚ :=
  (totalPackets : ℚ) - actualFadeSteps totalPackets + i

/-- Indexing a JavaScript array with a number yields an element only when the
number is a non-negative integer below the length; any other subscript reads
`undefined` (modelled as `none`), and dereferencing a property such as `.data`
on it throws a `TypeError`. -/
def jsArrayGet (l : List Packet) (q : ℚ) : Option Packet :=
  if q.den = 1 ∧ 0 ≤ q.num ∧ q.num < l.length then l.get? q.num.toNat else none

/-- C7: on a loaded recording of 3 packets (any odd packet count below 600
behaves the same) the fade loop of `src/index.ts` does run — `0 < 1.5` — yet
its very first end-of-clip index is the fractional `3/2`, so
`tempBuffer[endPacketIndex]` is `undefined` and the following `.data` access
throws: the splice crashes instead of clamping the window to valid integer
indices. -/
theorem fade_reads_invalid_index_on_odd_length :
    (0 : ℚ) < actualFadeSteps 3 ∧
    actualFadeSteps 3 = 3 / 2 ∧
    endPacketIndexQ 3 0 = 3 / 2 ∧
    jsArrayGet scenarioA (endPacketIndexQ 3 0) = none := by
  refine ⟨?_, ?_, ?_, ?_⟩
  · rw [actualFadeSteps]
    norm_num
  · rw [actualFadeSteps]
    norm_num
  · rw [endPacketIndexQ, actualFadeSteps]
    norm_num
  · rw [show endPacketIndexQ 3 0 = 3 / 2 from by rw [endPacketIndexQ, actualFadeSteps]; norm_num]
    unfold jsArrayGet
    rw [if_neg]
    rintro ⟨hden, -, -⟩
    have hint : (((3 : ℚ) / 2).num : ℚ) = (3 : ℚ) / 2 := (Rat.den_eq_one_iff _).mp hden
    have h3 : (2 : ℚ) * (((3 : ℚ) / 2).num : ℚ) = 3 := by
      rw [hint]
      ring
    have h4 : (2 : Int) * ((3 : ℚ) / 2).num = 3 := by exact_mod_cast h3
    omega

/- ### C9: cooperative cancellation of the playback loop -/

/-- The packet-index advance of the playback loop in `src/index.ts`: the body
executes `if (i === tempBuffer.length - 1) i = 0` and the `for` then applies
`i++`, so after the last index the next iteration plays index 1. -/
def nextIdx (len i : Nat) : Nat := if i = len - 1 then 1 else i + 1

/-- Transmission trace of the playback loop of `src/index.ts` against a
schedule of the shared `playing` flag.  Iteration `t` (current packet index
`i`) first reads the flag — the `if (!this.playing) break` sits at the top of
the body, before the transmit — and breaks immediately when it is false;
otherwise it transmits packet `i` and proceeds to the next iteration after
its sleep.  `playingAt t` is the flag value observed at the top of iteration
`t`; in the single-threaded runtime the flag only changes while the loop is
suspended in its inter-frame sleep, i.e. between iterations.  `fuel` bounds
the unrolling of the otherwise endless wrapping loop.  The trace lists
`(t, i)` for every transmit that happens. -/
def loopTrace (len : Nat) (playingAt : Nat → Bool) : Nat → Nat → Nat → List (Nat × Nat)
  | 0, _, _ => []
  | fuel + 1, t, i =>
    if playingAt t then (t, i) :: loopTrace len playingAt fuel (t + 1) (nextIdx len i)
    else []

/-- The flag schedule induced by a `stop()` call that runs during the sleep of
iteration `k`: the flag is still true at the top of every iteration up to `k`
and false from iteration `k + 1` on. -/
def stoppedAfter (k : Nat) : Nat → Bool := fun t => decide (t ≤ k)

/-- C9: when `stop()` runs during iteration `k`'s sleep, every transmit of the
playback loop happens at an iteration `t ≤ k`: the flag is observed at the
top of each iteration before the transmit, so no transmit occurs after the
iteration in progress when `stop()` was called — the loop exits within one
frame interval and is never interrupted mid-transmit. -/
theorem stop_bounds_transmissions (len k : Nat) :
    ∀ (fuel t0 i0 : Nat) (e : Nat × Nat),
      e ∈ loopTrace len (stoppedAfter k) fuel t0 i0 → e.1 ≤ k := by
  intro fuel
  induction fuel with
  | zero =>
    intro t0 i0 e he
    simp [loopTrace] at he
  | succ n ih =>
    intro t0 i0 e he
    rw [loopTrace] at he
    by_cases h : stoppedAfter k t0
    · rw [if_pos h] at he
      rcases List.mem_cons.mp he with rfl | hmem
      · exact of_decide_eq_true h
      · exact ih _ _ e hmem
    · rw [if_neg h] at he
      cases he

/-- Witness for C9: with 3 packets, stop during iteration 2's sleep and fuel
5, the transmit at iteration 2 is in the trace and is bounded by 2. -/
theorem stop_bounds_transmissions_witness :
    ((2, 2) : Nat × Nat).1 ≤ 2 :=
  stop_bounds_transmissions 3 2 5 0 0 (2, 2) (by decide)

/- ### C1: the on-disk format and truncated loads -/

/-- JSON values, covering everything the recorder ever serializes: strings
(without escape sequences — none appear in the recorder's output), integers,
arrays and objects. -/
inductive JValue where
  | jstr (s : List Char)
  | jnum (n : Int)
  | jarr (vs : List JValue)
  | jobj (fields : List (List Char × JValue))

/-- Whitespace skipping of the JSON grammar. -/
def skipWs : List Char → List Char
  | c :: cs => if c = ' ' ∨ c = '\n' ∨ c = '\t' ∨ c = '\r' then skipWs cs else c :: cs
  | [] => []

/-- Body of a JSON string after the opening quote: everything up to the
closing quote.  Escape sequences are rejected (the recorder never emits any);
an unterminated string fails. -/
def parseStringBody : List Char → Option (List Char × List Char)
  | [] => none
  | c :: cs =>
    if c = '"' then some ([], cs)
    else if c = '\\' then none
    else (parseStringBody cs).map (fun r => (c :: r.1, r.2))

/-- Decimal digit test. -/
def isDigit (c : Char) : Bool := '0' ≤ c && c ≤ '9'

/-- Consume leading digits, accumulating their value. -/
def parseDigits : List Char → Nat → Nat × List Char
  | c :: cs, acc =>
    if isDigit c then parseDigits cs (acc * 10 + (c.toNat - '0'.toNat)) else (acc, c :: cs)
  | [], acc => (acc, [])

/-- A non-empty digit run. -/
def parseNat (cs : List Char) : Option (Nat × List Char) :=
  match cs with
  | c :: _ => if isDigit c then some (parseDigits cs 0) else none
  | [] => none

/-- A JSON integer (the recorder serializes only integral numbers). -/
def parseNumber (cs : List Char) : Option (Int × List Char) :=
  match cs with
  | '-' :: rest => (parseNat rest).map (fun r => (-(r.1 : Int), r.2))
  | _ => (parseNat cs).map (fun r => ((r.1 : Int), r.2))

/-- The elements of a non-empty JSON array, given a parser `pv` for one value:
value, then either a comma and more elements or the closing bracket.  The
`fuel` bounds the number of elements. -/
def parseElemsAux (pv : List Char → Option (JValue × List Char)) :
    Nat → List Char → Option (List JValue × List Char)
  | 0, _ => none
  | n + 1, cs =>
    match pv cs with
    | none => none
    | some (v, rest) =>
      match skipWs rest with
      | ',' :: rest2 => (parseElemsAux pv n rest2).map (fun r => (v :: r.1, r.2))
      | ']' :: rest2 => some ([v], rest2)
      | _ => none

/-- The fields of a non-empty JSON object, given a parser `pv` for one value:
a quoted key, a colon, a value, then either a comma and more fields or the
closing brace. -/
def parseFieldsAux (pv : List Char → Option (JValue × List Char)) :
    Nat → List Char → Option (List (List Char × JValue) × List Char)
  | 0, _ => none
  | n + 1, cs =>
    match skipWs cs with
    | '"' :: rest =>
      match parseStringBody rest with
      | none => none
      | some (key, rest2) =>
        match skipWs rest2 with
        | ':' :: rest3 =>
          match pv rest3 with
          | none => none
          | some (v, rest4) =>
            match skipWs rest4 with
            | ',' :: rest5 =>
              (parseFieldsAux pv n rest5).map (fun r => ((key, v) :: r.1, r.2))
            | '}' :: rest5 => some ([(key, v)], rest5)
            | _ => none
        | _ => none
    | _ => none

/-- One JSON value: a string, an array, an object or a number.  A document cut
off before the value is complete — in particular an array whose closing
bracket never arrives — parses to `none`, which is exactly the exception
`JSON.parse` throws on truncated input.  The `fuel` bounds nesting depth and
element counts; `jsonParse` passes one more than the input length, which every
input fits in. -/
def parseValue (fuel : Nat) (cs : List Char) : Option (JValue × List Char) :=
  match fuel with
  | 0 => none
  | f + 1 =>
    match skipWs cs with
    | '"' :: rest => (parseStringBody rest).map (fun r => (JValue.jstr r.1, r.2))
    | '[' :: rest =>
      match skipWs rest with
      | ']' :: rest2 => some (JValue.jarr [], rest2)
      | _ =>
        (parseElemsAux (fun cs2 => parseValue f cs2) f rest).map
          (fun r => (JValue.jarr r.1, r.2))
    | '{' :: rest =>
      match skipWs rest with
      | '}' :: rest2 => some (JValue.jobj [], rest2)
      | _ =>
        (parseFieldsAux (fun cs2 => parseValue f cs2) f rest).map
          (fun r => (JValue.jobj r.1, r.2))
    | other => (parseNumber other).map (fun r => (JValue.jnum r.1, r.2))

/-- `JSON.parse`: parse one value and require only whitespace after it. -/
def jsonParse (cs : List Char) : Option JValue :=
  match parseValue (cs.length + 1) cs with
  | some (v, rest) => if skipWs rest = [] then some v else none
  | none => none

/-- The recording metadata as `record()` serializes it; the `createdAt` Date
is carried as the ISO-8601 string `JSON.stringify` renders it to. -/
structure MetadataJS where
  filename : List Char
  createdAt : List Char
  universes : List Nat

/-- A packet as the inbound handler serializes it; the `TS` Date is carried as
its ISO-8601 JSON string. -/
structure PacketJS where
  TS : List Char
  U : Nat
  S : Nat
  N : Nat
  data : List Nat

/-- Wrap a string in JSON quotes. -/
def jquote (s : List Char) : List Char := '"' :: s ++ ['"']

/-- Decimal digits of a number, as `JSON.stringify` renders a `Nat`. -/
def natChars (n : Nat) : List Char := (Nat.repr n).toList

/-- Comma-separated concatenation. -/
def commaSep : List (List Char) → List Char
  | [] => []
  | [x] => x
  | x :: y :: rest => x ++ ',' :: commaSep (y :: rest)

/-- One `"key":value` member of a JSON object. -/
def jfield (key : List Char) (val : List Char) : List Char :=
  jquote key ++ ':' :: val

/-- A JSON array rendering. -/
def jarrayChars (elems : List (List Char)) : List Char :=
  '[' :: commaSep elems ++ [']']

/-- A JSON object rendering. -/
def jobjectChars (fields : List (List Char)) : List Char :=
  '{' :: commaSep fields ++ ['}']

/-- The exact output of `JSON.stringify(this.metadata)` in `record()`
(src/index.ts): an object with the filename, the ISO createdAt string and the
universes array. -/
def stringifyMetadata (m : MetadataJS) : List Char :=
  jobjectChars
    [jfield "filename".toList (jquote m.filename),
     jfield "createdAt".toList (jquote m.createdAt),
     jfield "universes".toList (jarrayChars (m.universes.map natChars))]

/-- The exact output of `JSON.stringify(packet)` in the inbound handler: the
ISO timestamp string, the three address numbers, and the Node `Buffer`, which
stringifies to an object with a type tag and the byte array. -/
def stringifyPacket (p : PacketJS) : List Char :=
  jobjectChars
    [jfield "TS".toList (jquote p.TS),
     jfield "U".toList (natChars p.U),
     jfield "S".toList (natChars p.S),
     jfield "N".toList (natChars p.N),
     jfield "data".toList
       (jobjectChars
         [jfield "type".toList (jquote "Buffer".toList),
          jfield "data".toList (jarrayChars (p.data.map natChars))])]

/-- Everything `record()` and the inbound handler have written after the
metadata and the packets `ps`, before `close()` runs: the opening bracket,
the metadata JSON, and a comma followed by the packet JSON for every packet —
with NO closing bracket yet (src/index.ts `record` writes `"["` then the
metadata; each recorded packet is written as `"," + JSON.stringify(packet)`).
This is the entire file content when the process dies before `close()`. -/
def writtenBeforeClose (m : MetadataJS) (ps : List PacketJS) : List Char :=
  '[' :: stringifyMetadata m ++ (ps.map (fun p => ',' :: stringifyPacket p)).flatten

/-- The file after a clean `close()`: the closing bracket `"]"` and the final
newline written by `gzip.end("\n")`. -/
def closedFile (m : MetadataJS) (ps : List PacketJS) : List Char :=
  writtenBeforeClose m ps ++ [']', '\n']

/-- Embeds the load path `handleFileData` (src/index.ts): `JSON.parse` of the
joined decompressed chunks — a parse failure is a thrown exception, `none` —
followed by `data[0]` (the metadata record) and `data.slice(1)` (the packet
records).  The result pairs the metadata element with the packet elements. -/
def loadRecording (cs : List Char) : Option (JValue × List JValue) :=
  match jsonParse cs with
  | some (JValue.jarr (m :: rest)) => some (m, rest)
  | _ => none

/-- Example metadata record. -/
def exMeta : MetadataJS :=
  { filename := "2024-04-05-19-47-40.dmxrec".toList,
    createdAt := "2024-04-05T19:47:40.000Z".toList,
    universes := [1, 2] }

/-- Example first packet. -/
def exP1 : PacketJS :=
  { TS := "2024-04-05T19:47:41.000Z".toList, U := 1, S := 0, N := 0, data := [255, 0] }

/-- Example second packet. -/
def exP2 : PacketJS :=
  { TS := "2024-04-05T19:47:41.050Z".toList, U := 2, S := 0, N := 0, data := [10, 20] }

/-- The example recording truncated in the middle of its final record: the
process died after flushing everything up to five characters before the end
of the second packet, so the metadata and the first packet are complete on
disk. -/
def truncatedFile : List Char :=
  (writtenBeforeClose exMeta [exP1, exP2]).take
    ((writtenBeforeClose exMeta [exP1, exP2]).length - 5)

set_option maxRecDepth 100000

/-- C1 counterexample: the recorder's on-disk encoding IS a single top-level
JSON array (it opens with `[` and the closed file parses as an array of three
records), and loading the truncated file yields a parse failure — no records
at all — instead of the two complete prior records the claim requires. -/
theorem truncated_load_returns_nothing :
    loadRecording truncatedFile = none ∧
    (loadRecording (closedFile exMeta [exP1, exP2])).map (fun r => r.2.length)
      = some 2 ∧
    truncatedFile.head? = some '[' := by
  refine ⟨rfl, rfl, rfl⟩

/-- C1 amended: the writer emits a single top-level JSON array whose closing
bracket only `close()` writes; a file that misses it — even with every record
complete — fails `JSON.parse`, so a crash mid-recording loses the whole file,
not just the final partial record.  With the bracket in place the same bytes
load fine. -/
theorem array_format_requires_closing_bracket :
    jsonParse (writtenBeforeClose exMeta [exP1]) = none ∧
    (loadRecording (closedFile exMeta [exP1])).map (fun r => r.2.length)
      = some 1 ∧
    (writtenBeforeClose exMeta [exP1]).head? = some '[' := by
  refine ⟨rfl, rfl, rfl⟩

end DMXPlayer
